import Mathlib

/-!
Verification of the phishy-token checker against its specification.

The development shallowly embeds the decision-bearing parts of the
repository:

* `check_phishy_token.py`: the classifier `analyze_phishy_behavior_pumpfun`
  (per-record body `classifyOne`), its amount conversion (Python
  `float(x) if x else 0.0` inside a `try/except (ValueError, TypeError)`),
  its timestamp handling (`datetime.fromisoformat` after replacing `Z`
  with `+00:00`, structured comparison with lexical-string fallback), and
  the response-extraction logic of the two fetchers.
* `app.py`: the summary-totals aggregation in `check_token` and the
  bounded `deque(maxlen=100)` cache behind `/api/recent-phishy`.

Decimal amounts are modelled as rationals; raw JSON values as `Val`
(null / number / string); raw timestamp values as `TsVal` (null /
string).  Python `datetime` objects are modelled by a wall-clock key in
microseconds plus an optional UTC offset (absent = naive), because mixed
naive/aware comparison raises `TypeError` in Python, which the code
catches.  The ISO-8601 parser below implements the grammar accepted by
`datetime.fromisoformat`
(`YYYY-MM-DD[*HH[:MM[:SS[.fff[fff]]]][+HH:MM[:SS]]]` with calendar and
range validation); exotic float-literal forms (inf, nan, underscores,
surrounding whitespace, binary64 overflow) are outside the modelled
subset and are not relied on by any theorem.
-/

/-- A raw JSON-ish value as it arrives from the fetchers: null, a number,
or a string.  Amount fields of the records hold such values. -/
inductive Val where
  | null
  | num (q : ℚ)
  | str (s : String)
deriving DecidableEq

/-- A raw timestamp value: null (absent / JSON null) or a string. -/
inductive TsVal where
  | null
  | str (s : String)
deriving DecidableEq

/-- Python truthiness of a raw timestamp value: `None` and the empty
string are falsy, every other string is truthy. -/
def truthyTs : TsVal → Bool
  | TsVal.null => false
  | TsVal.str s => !(s.isEmpty)

/-- The underlying string of a raw timestamp value (used by the code's
lexical fallback comparison, which only runs when both values are truthy
strings). -/
def tsRaw : TsVal → String
  | TsVal.null => ""
  | TsVal.str s => s

/-- Python `str(...)` of a raw timestamp value, used when the code
interpolates it into a reason message. -/
def tsRepr : TsVal → String
  | TsVal.null => "None"
  | TsVal.str s => s

/-- Read exactly `n` decimal digits, folding them onto `acc`; fails if a
non-digit or end of input is hit first. -/
def readDigits : Nat → Nat → List Char → Option (Nat × List Char)
  | 0, acc, cs => some (acc, cs)
  | n + 1, acc, c :: cs =>
      if c.isDigit then readDigits n (acc * 10 + (c.toNat - 48)) cs else none
  | _ + 1, _, [] => none

/-- Consume one expected character. -/
def expectChar (c : Char) : List Char → Option (List Char)
  | x :: xs => if x = c then some xs else none
  | [] => none

/-- Greedily read decimal digits, returning value, digit count and rest. -/
def munchDigits : List Char → Nat → Nat → Nat × Nat × List Char
  | c :: cs, acc, n =>
      if c.isDigit then munchDigits cs (acc * 10 + (c.toNat - 48)) (n + 1)
      else (acc, n, c :: cs)
  | [], acc, n => (acc, n, [])

/-- Python `float(s)` on a string: optional sign, decimal digits with an
optional point (at least one digit overall), optional exponent.  `none`
models the `ValueError` raised on non-numeric strings. -/
def parseFloatStr (s : String) : Option ℚ := do
  let (sgn, cs) :=
    match s.toList with
    | '+' :: r => ((1 : ℚ), r)
    | '-' :: r => ((-1 : ℚ), r)
    | r => ((1 : ℚ), r)
  let (ip, n1, cs1) := munchDigits cs 0 0
  let (fp, n2, cs2) :=
    match cs1 with
    | '.' :: r => munchDigits r 0 0
    | _ => (0, 0, cs1)
  guard (1 ≤ n1 + n2)
  let mant : ℚ := (ip : ℚ) + (fp : ℚ) / ((10 : ℚ) ^ n2)
  match cs2 with
  | [] => pure (sgn * mant)
  | e :: r =>
      if e = 'e' ∨ e = 'E' then do
        let (epos, r1) :=
          match r with
          | '+' :: t => (true, t)
          | '-' :: t => (false, t)
          | t => (true, t)
        let (ev, n3, r2) := munchDigits r1 0 0
        guard (1 ≤ n3 ∧ r2 = [])
        pure (sgn * mant * (if epos then (10 : ℚ) ^ ev else 1 / ((10 : ℚ) ^ ev)))
      else none

/-- The classifier's amount conversion attempt, `float(x) if x else 0.0`:
falsy values (`None`, `0`, the empty string) become `0.0` without calling
`float`; `float` of a number is the number; `float` of any other string
may raise (`none`). -/
def pyFloatTry : Val → Option ℚ
  | Val.null => some 0
  | Val.num q => some q
  | Val.str s => if s = "" then some 0 else parseFloatStr s

/-- The specification's per-field null-safe conversion: absent, null, or
non-numeric input becomes `0.0`, never raising. -/
def nullSafeAmount (v : Val) : ℚ := (pyFloatTry v).getD 0

/-- The conversion block of `analyze_phishy_behavior_pumpfun` (lines
974-982): both amounts are converted inside one `try`; on
`ValueError`/`TypeError` the `except` clause resets transferred_float,
bought_float and transferred_without_buy all to `0.0`. -/
def convertAmounts (t b : Val) : ℚ × ℚ × ℚ :=
  match pyFloatTry t, pyFloatTry b with
  | some tf, some bf => (tf, bf, tf - bf)
  | _, _ => (0, 0, 0)

/-- One record of the transfers query result (Query 1): the receiving
owner, `Block.first_transfer`, and `total_transferred_amount` (the
absent-key default `0` is represented by `Val.num 0`). -/
structure TransferRec where
  receiver : String
  firstTransferTime : TsVal
  totalTransferred : Val
deriving DecidableEq

/-- One entry of the buys mapping built by `get_first_buys_pumpfun`:
`first_buy_time` and `total_amount`. -/
structure BuyRec where
  firstBuyTime : TsVal
  totalAmount : Val
deriving DecidableEq

/-- One phishy-address verdict dictionary appended by the classifier. -/
structure Verdict where
  address : String
  firstTransferTime : TsVal
  firstBuyTime : TsVal
  totalTransferred : Val
  totalBought : Val
  transferredWithoutBuy : ℚ
  reason : String
deriving DecidableEq

/-- Is a calendar year a leap year (proleptic Gregorian, as Python's
`datetime`). -/
def isLeapYear (y : Nat) : Bool := y % 4 == 0 && (y % 100 != 0 || y % 400 == 0)

/-- Days in a month of a given year. -/
def daysInMonth (y m : Nat) : Nat :=
  if m = 2 then (if isLeapYear y then 29 else 28)
  else if m = 4 ∨ m = 6 ∨ m = 9 ∨ m = 11 then 30 else 31

/-- Days in all years strictly before year `y` (year numbering from 1). -/
def daysBeforeYear (y : Nat) : Nat :=
  365 * (y - 1) + (y - 1) / 4 + (y - 1) / 400 - (y - 1) / 100

/-- Days in the months of year `y` strictly before month `m`. -/
def daysBeforeMonth (y m : Nat) : Nat :=
  (List.range (m - 1)).foldl (fun acc i => acc + daysInMonth y (i + 1)) 0

/-- Proleptic-Gregorian ordinal day number of a date. -/
def toOrdinalDay (y m d : Nat) : Nat := daysBeforeYear y + daysBeforeMonth y m + d

/-- Microseconds of wall-clock time at a date/time, as a linear key. -/
def microsOfDT (y mo d h mi s f : Nat) : Int :=
  ((((toOrdinalDay y mo d) * 86400 + h * 3600 + mi * 60 + s) * 1000000 + f : Nat) : Int)

/-- A Python `datetime` value: wall-clock key in microseconds and an
optional UTC offset in microseconds (`none` = naive). -/
structure PyDT where
  key : Int
  tzOffset : Option Int
deriving DecidableEq

/-- The instant a datetime denotes: wall-clock key minus its UTC offset
(naive datetimes compare among themselves by the bare key, which this
also returns). -/
def instantKey (d : PyDT) : Int := d.key - d.tzOffset.getD 0

/-- Fractional-seconds part accepted by `fromisoformat`: a point followed
by exactly three or six digits (value in microseconds). -/
def parseFraction : List Char → Option (Nat × List Char)
  | '.' :: cs =>
      (match readDigits 6 0 cs with
       | some r => some r
       | none =>
          match readDigits 3 0 cs with
          | some (f, rest) => some (f * 1000, rest)
          | none => none)
  | cs => some (0, cs)

/-- Time-of-day part `HH[:MM[:SS[.fff[fff]]]]` of an ISO string. -/
def parseTimeOfDay (cs : List Char) : Option (Nat × Nat × Nat × Nat × List Char) := do
  let (h, cs1) ← readDigits 2 0 cs
  match cs1 with
  | ':' :: cs2 => do
      let (mi, cs3) ← readDigits 2 0 cs2
      match cs3 with
      | ':' :: cs4 => do
          let (s, cs5) ← readDigits 2 0 cs4
          let (f, cs6) ← parseFraction cs5
          pure (h, mi, s, f, cs6)
      | _ => pure (h, mi, 0, 0, cs3)
  | _ => pure (h, 0, 0, 0, cs1)

/-- Trailing timezone part `[+-]HH:MM[:SS]` of an ISO string (must reach
end of input); yields the offset in microseconds, `none` meaning naive. -/
def parseTzOffset : List Char → Option (Option Int)
  | [] => some none
  | c :: cs =>
      if c = '+' ∨ c = '-' then do
        let (oh, cs1) ← readDigits 2 0 cs
        let cs2 ← expectChar ':' cs1
        let (om, cs3) ← readDigits 2 0 cs2
        let (os, cs4) ←
          (match cs3 with
           | ':' :: t => do
              let (os, cs5) ← readDigits 2 0 t
              pure (os, cs5)
           | _ => pure ((0 : Nat), cs3))
        guard (cs4 = [] ∧ oh ≤ 23 ∧ om ≤ 59 ∧ os ≤ 59)
        let total : Int := (((oh * 3600 + om * 60 + os) * 1000000 : Nat) : Int)
        pure (some (if c = '-' then -total else total))
      else none

/-- `datetime.fromisoformat`: `YYYY-MM-DD`, optionally a single separator
character, time of day and timezone offset; validates calendar ranges.
`none` models the `ValueError` on malformed input. -/
def parseISO (s : String) : Option PyDT := do
  let cs := s.toList
  let (y, cs1) ← readDigits 4 0 cs
  let cs2 ← expectChar '-' cs1
  let (mo, cs3) ← readDigits 2 0 cs2
  let cs4 ← expectChar '-' cs3
  let (d, cs5) ← readDigits 2 0 cs4
  guard (1 ≤ y ∧ 1 ≤ mo ∧ mo ≤ 12 ∧ 1 ≤ d ∧ d ≤ daysInMonth y mo)
  match cs5 with
  | [] => pure ⟨microsOfDT y mo d 0 0 0 0, none⟩
  | _ :: cs6 => do
      let (h, mi, sec, f, cs7) ← parseTimeOfDay cs6
      guard (h ≤ 23 ∧ mi ≤ 59 ∧ sec ≤ 59)
      let tz ← parseTzOffset cs7
      pure ⟨microsOfDT y mo d h mi sec f, tz⟩

/-- Python `s.replace` of every `Z` by `+00:00`, applied by the code
before parsing. -/
def zreplace (s : String) : String :=
  String.mk (s.toList.foldr
    (fun c acc =>
      if c = 'Z' then '+' :: '0' :: '0' :: ':' :: '0' :: '0' :: acc else c :: acc)
    [])

/-- The value bound to `transfer_dt` / `buy_dt` in the comparison block:
a string is parsed with `fromisoformat` after the `Z` replacement (a
parse failure raises, modelled by `Except.error`); a non-string (`None`)
is passed through unchanged. -/
inductive DTObj where
  | pyNone
  | dt (d : PyDT)
deriving DecidableEq

/-- Evaluate a raw timestamp value to the object the code compares. -/
def toDT : TsVal → Except Unit DTObj
  | TsVal.null => Except.ok DTObj.pyNone
  | TsVal.str s =>
      match parseISO (zreplace s) with
      | some d => Except.ok (DTObj.dt d)
      | none => Except.error ()

/-- Python `<` on the compared objects: `None` against anything raises
`TypeError`; naive against aware raises `TypeError`; otherwise datetimes
compare by wall clock (both naive) or by instant (both aware). -/
def ltDT : DTObj → DTObj → Except Unit Bool
  | DTObj.dt a, DTObj.dt b =>
      (match a.tzOffset, b.tzOffset with
       | none, none => Except.ok (decide (a.key < b.key))
       | some x, some y => Except.ok (decide (a.key - x < b.key - y))
       | _, _ => Except.error ())
  | _, _ => Except.error ()

/-- The whole `try` block of the timestamp comparison: evaluate both
timestamp objects, then compare; any raised error aborts the block. -/
def tryCompare (a b : TsVal) : Except Unit Bool :=
  match toDT a with
  | Except.error e => Except.error e
  | Except.ok x =>
      match toDT b with
      | Except.error e => Except.error e
      | Except.ok y => ltDT x y

/-- Python `<` on two strings: code-point lexicographic comparison,
i.e. the lexicographic order of the character lists (which is exactly
what the order on `String` unfolds to). -/
def pyStrLt (a b : String) : Bool := decide (a.data < b.data)

/-- The boolean string comparison agrees with the order on `String`. -/
theorem pyStrLt_iff (a b : String) : pyStrLt a b = true ↔ a < b := by
  rw [String.lt_iff_toList_lt]
  simp [pyStrLt, String.toList]

/-- The reason message of the structured-comparison verdict,
`f"Transfer before buy (transfer: ..., buy: ...)"`. -/
def transferBeforeBuyReason (a b : TsVal) : String :=
  "Transfer before buy (transfer: " ++ tsRepr a ++ ", buy: " ++ tsRepr b ++ ")"

/-- Body of the per-transfer loop of `analyze_phishy_behavior_pumpfun`
(lines 962-1045): look the receiver up in the buys mapping, convert the
amounts, and decide whether a phishy verdict is appended (`some`) or not
(`none`). -/
def classifyOne (t : TransferRec) (buys : String → Option BuyRec) : Option Verdict :=
  let buyInfo := buys t.receiver
  let totalBought : Val :=
    match buyInfo with
    | some b => b.totalAmount
    | none => Val.num 0
  let conv := convertAmounts t.totalTransferred totalBought
  match buyInfo with
  | none =>
      some { address := t.receiver
             firstTransferTime := t.firstTransferTime
             firstBuyTime := TsVal.null
             totalTransferred := t.totalTransferred
             totalBought := Val.num 0
             transferredWithoutBuy := conv.1
             reason := "Never bought the token" }
  | some b =>
      match b.firstBuyTime with
      | TsVal.null =>
          some { address := t.receiver
                 firstTransferTime := t.firstTransferTime
                 firstBuyTime := TsVal.null
                 totalTransferred := t.totalTransferred
                 totalBought := b.totalAmount
                 transferredWithoutBuy := conv.2.2
                 reason := "Buy record exists but no timestamp" }
      | TsVal.str sb =>
          match tryCompare t.firstTransferTime (TsVal.str sb) with
          | Except.ok true =>
              some { address := t.receiver
                     firstTransferTime := t.firstTransferTime
                     firstBuyTime := TsVal.str sb
                     totalTransferred := t.totalTransferred
                     totalBought := b.totalAmount
                     transferredWithoutBuy := conv.2.2
                     reason := transferBeforeBuyReason t.firstTransferTime (TsVal.str sb) }
          | Except.ok false => none
          | Except.error _ =>
              if truthyTs t.firstTransferTime && truthyTs (TsVal.str sb) then
                if pyStrLt (tsRaw t.firstTransferTime) (tsRaw (TsVal.str sb)) then
                  some { address := t.receiver
                         firstTransferTime := t.firstTransferTime
                         firstBuyTime := TsVal.str sb
                         totalTransferred := t.totalTransferred
                         totalBought := b.totalAmount
                         transferredWithoutBuy := conv.2.2
                         reason := "Transfer before buy (string comparison)" }
                else none
              else none

/-- `analyze_phishy_behavior_pumpfun`: iterate the transfers in input
order, appending a verdict whenever the loop body produces one, and
return the count together with the list. -/
def analyze_phishy_behavior_pumpfun
    (transfers : List TransferRec) (buys : String → Option BuyRec) :
    Nat × List Verdict :=
  let phishy := transfers.foldl
    (fun acc t =>
      match classifyOne t buys with
      | some v => acc ++ [v]
      | none => acc)
    []
  (phishy.length, phishy)

/-- Shape of the `Solana` field of a GraphQL response payload, as the
fetchers case on it: absent/null, an empty JSON array (falsy), a
non-empty array whose head may carry the items key, an empty JSON object
(falsy), a non-empty object that may carry the items key, or some other
truthy value that is neither list nor dict.  `α` is the type under the
items key (`Transfers` or `DEXTradeByTokens`); `none` payload means the
key is absent (the code defaults it to `[]`). -/
inductive SolField (α : Type) where
  | nullOrMissing
  | emptyList
  | listHead (items : Option α)
  | emptyDict
  | dictWith (items : Option α)
  | otherTruthy
deriving DecidableEq

/-- A parsed GraphQL response body: whether a `data` key is present,
the `Solana` field under it, and whether an `errors` key is present. -/
structure GqlResponse (α : Type) where
  hasData : Bool
  sol : SolField α
  hasErrors : Bool
deriving DecidableEq

/-- Outcome of the HTTP round trip inside `make_graphql_request`. -/
inductive HttpOutcome (α : Type) where
  | transportError
  | response (r : GqlResponse α)

/-- `make_graphql_request`: a transport failure (`RequestException`)
executes `sys.exit(1)`, modelled as `Except.error`; any parsed response
is returned to the caller unchanged, even when it carries an `errors`
field. -/
def make_graphql_request : HttpOutcome α → Except Unit (GqlResponse α)
  | HttpOutcome.transportError => Except.error ()
  | HttpOutcome.response r => Except.ok r

/-- The response-extraction logic shared by both fetchers (lines 839-859
and 923-946): the items list under the `Solana` field, or `[]` whenever
the `data` key is missing, the `Solana` value is falsy or of an
unexpected type, or the items key is absent. -/
def extractItems (r : GqlResponse (List β)) : List β :=
  if r.hasData then
    match r.sol with
    | SolField.listHead items => items.getD []
    | SolField.dictWith items => items.getD []
    | _ => []
  else []

/-- `get_first_transfers_pumpfun` after the request: return the extracted
transfers if non-empty; otherwise print a diagnostic and return `[]`
(also when the response carried GraphQL errors). -/
def get_first_transfers_pumpfun
    (o : HttpOutcome (List TransferRec)) : Except Unit (List TransferRec) :=
  match make_graphql_request o with
  | Except.error e => Except.error e
  | Except.ok r => Except.ok (extractItems r)

/-- One row of the buys query result (Query 2). -/
structure TradeRec where
  buyer : String
  firstBuyTime : TsVal
  totalBoughtAmount : Val
deriving DecidableEq

/-- The dictionary built from the trade rows by `get_first_buys_pumpfun`:
assignments in row order, so for a duplicated buyer the last row wins. -/
def buyDataOf (trades : List TradeRec) : String → Option BuyRec :=
  fun a =>
    (trades.reverse.find? (fun tr => tr.buyer == a)).map
      (fun tr => { firstBuyTime := tr.firstBuyTime, totalAmount := tr.totalBoughtAmount })

/-- `get_first_buys_pumpfun`: an empty buyer list short-circuits to the
empty mapping before any request; otherwise the trade rows are extracted
from the response (empty on any error or unexpected structure) and folded
into the mapping. -/
def get_first_buys_pumpfun
    (buyers : List String) (o : HttpOutcome (List TradeRec)) :
    Except Unit (List TradeRec) :=
  if buyers.isEmpty then Except.ok []
  else
    match make_graphql_request o with
    | Except.error e => Except.error e
    | Except.ok r => Except.ok (extractItems r)

/-- A verdict dictionary as the aggregator in `app.py` reads it: each
amount key may be absent (`none`). -/
structure AggRecord where
  total_transferred : Option Val
  total_bought : Option Val
  transferred_without_buy : Option Val
deriving DecidableEq

/-- `float(addr.get(key, 0) or 0)` of `check_token` (lines 269-282):
a missing key defaults to `0`; a falsy value is replaced by `0` before
`float`; `float` of a non-numeric string raises (`none`), and that
exception is not caught locally. -/
def aggFloat : Option Val → Option ℚ
  | none => some 0
  | some Val.null => some 0
  | some (Val.num q) => some q
  | some (Val.str s) => if s = "" then some 0 else parseFloatStr s

/-- Python `sum` over the converted amounts of one field: the first
conversion failure aborts the whole sum. -/
def sumAgg (f : AggRecord → Option Val) : List AggRecord → Option ℚ
  | [] => some 0
  | r :: rs =>
      match aggFloat (f r), sumAgg f rs with
      | some x, some acc => some (x + acc)
      | _, _ => none

/-- The totals block of `check_token`: the three field sums over the
verdict list; `none` models the uncaught exception that propagates to
the generic 500 handler. -/
def computeTotals (vs : List AggRecord) : Option (ℚ × ℚ × ℚ) :=
  match sumAgg (fun r => r.total_transferred) vs,
        sumAgg (fun r => r.total_bought) vs,
        sumAgg (fun r => r.transferred_without_buy) vs with
  | some tt, some tb, some tw => some (tt, tb, tw)
  | _, _, _ => none

/-- The aggregator's view of a verdict produced by the classifier: every
amount key is present; `transferred_without_buy` is the float the
classifier computed. -/
def verdictToAgg (v : Verdict) : AggRecord :=
  { total_transferred := some v.totalTransferred
    total_bought := some v.totalBought
    transferred_without_buy := some (Val.num v.transferredWithoutBuy) }

/-- One entry of the recent-phishy cache (`token_address`, `token_type`,
`phishy_count` and the totals; the wall-clock timestamp string is not
modelled). -/
structure CacheEntry where
  tokenAddress : String
  phishyCount : Nat
  totals : ℚ × ℚ × ℚ
deriving DecidableEq

/-- The per-request values that feed the cache at the end of
`check_token`. -/
structure CheckOutcome where
  tokenAddress : String
  phishyCount : Nat
  totals : ℚ × ℚ × ℚ
deriving DecidableEq

/-- The cache entry appended for one completed check. -/
def toCacheEntry (r : CheckOutcome) : CacheEntry :=
  { tokenAddress := r.tokenAddress, phishyCount := r.phishyCount, totals := r.totals }

/-- `collections.deque(maxlen=n).append`: append on the right, evicting
from the left whatever exceeds the capacity. -/
def dequeAppend (maxlen : Nat) (q : List α) (x : α) : List α :=
  let q1 := q ++ [x]
  q1.drop (q1.length - maxlen)

/-- Capacity of `phishy_tokens_cache`. -/
def phishyCacheMax : Nat := 100

/-- The cache update at the end of `check_token`: only results with
`phishy_count > 0` are appended; non-phishy results leave the cache
untouched. -/
def cacheStep (q : List CacheEntry) (r : CheckOutcome) : List CacheEntry :=
  if 0 < r.phishyCount then dequeAppend phishyCacheMax q (toCacheEntry r) else q

/-- `get_recent_phishy`: the cache converted to a list and reversed, so
the most recent entry comes first. -/
def get_recent_phishy (q : List CacheEntry) : List CacheEntry := q.reverse

/-- The verdict-accumulating loop is the `filterMap` of its body. -/
theorem classifyFoldl_eq_filterMap (buys : String → Option BuyRec) :
    ∀ (ts : List TransferRec) (acc : List Verdict),
      ts.foldl
        (fun acc t =>
          match classifyOne t buys with
          | some v => acc ++ [v]
          | none => acc)
        acc
      = acc ++ ts.filterMap (fun t => classifyOne t buys)
  | [], acc => by simp
  | t :: ts, acc => by
      cases h : classifyOne t buys with
      | none =>
          simp only [List.foldl_cons, List.filterMap_cons, h]
          exact classifyFoldl_eq_filterMap buys ts acc
      | some v =>
          simp only [List.foldl_cons, List.filterMap_cons, h]
          rw [classifyFoldl_eq_filterMap buys ts (acc ++ [v])]
          simp

/-- The verdict list returned by the classifier. -/
theorem analyze_snd_eq (transfers : List TransferRec) (buys : String → Option BuyRec) :
    (analyze_phishy_behavior_pumpfun transfers buys).2
      = transfers.filterMap (fun t => classifyOne t buys) := by
  unfold analyze_phishy_behavior_pumpfun
  rw [classifyFoldl_eq_filterMap]
  simp


/-- Every verdict the loop body produces carries the record's receiving
address. -/
theorem classifyOne_address {t : TransferRec} {buys : String → Option BuyRec}
    {v : Verdict} (h : classifyOne t buys = some v) : v.address = t.receiver := by
  cases hb : buys t.receiver with
  | none =>
      simp [classifyOne, hb] at h
      simp [← h]
  | some b =>
      cases hfb : b.firstBuyTime with
      | null =>
          simp [classifyOne, hb, hfb] at h
          simp [← h]
      | str sb =>
          rcases hc : tryCompare t.firstTransferTime (TsVal.str sb) with e | bl
          · simp only [classifyOne, hb, hfb, hc] at h
            split at h
            · split at h
              · simp at h; simp [← h]
              · exact absurd h (by simp)
            · exact absurd h (by simp)
          · cases bl with
            | true =>
                simp only [classifyOne, hb, hfb, hc] at h
                simp at h; simp [← h]
            | false =>
                simp only [classifyOne, hb, hfb, hc] at h
                exact absurd h (by simp)

/-- In the never-bought branch the stored transferred_float is the
per-field null-safe conversion (converting the literal `0` bought amount
cannot raise). -/
theorem convertAmounts_fst_zero (x : Val) :
    (convertAmounts x (Val.num 0)).1 = nullSafeAmount x := by
  cases h : pyFloatTry x <;>
    simp [convertAmounts, h, nullSafeAmount,
      show pyFloatTry (Val.num 0) = some 0 from rfl]

/-- When both conversions succeed, the computed difference is the
difference of the per-field conversions. -/
theorem convertAmounts_thd_of_some {a b : Val} {x y : ℚ}
    (ha : pyFloatTry a = some x) (hb : pyFloatTry b = some y) :
    (convertAmounts a b).2.2 = x - y := by
  simp [convertAmounts, ha, hb]

/-- Against a literal `0` bought amount the computed difference equals
the stored transferred_float. -/
theorem convertAmounts_fst_eq_thd_zero (x : Val) :
    (convertAmounts x (Val.num 0)).2.2 = (convertAmounts x (Val.num 0)).1 := by
  cases h : pyFloatTry x <;>
    simp [convertAmounts, h, show pyFloatTry (Val.num 0) = some 0 from rfl]

/-- C2: a transfer whose receiving address has no entry in the buys
mapping always yields a verdict for that address with reason "Never
bought the token", zero bought amount, null first_buy_time, and
transferred_without_buy the null-safe conversion of the transferred
amount. -/
theorem c2_never_bought (transfers : List TransferRec)
    (buys : String → Option BuyRec) (t : TransferRec)
    (ht : t ∈ transfers) (hb : buys t.receiver = none) :
    ∃ v ∈ (analyze_phishy_behavior_pumpfun transfers buys).2,
      v.address = t.receiver ∧
      v.reason = "Never bought the token" ∧
      v.totalBought = Val.num 0 ∧
      v.firstBuyTime = TsVal.null ∧
      v.transferredWithoutBuy = nullSafeAmount t.totalTransferred := by
  rw [analyze_snd_eq]
  refine ⟨{ address := t.receiver
            firstTransferTime := t.firstTransferTime
            firstBuyTime := TsVal.null
            totalTransferred := t.totalTransferred
            totalBought := Val.num 0
            transferredWithoutBuy := (convertAmounts t.totalTransferred (Val.num 0)).1
            reason := "Never bought the token" },
          ?_, rfl, rfl, rfl, rfl, convertAmounts_fst_zero _⟩
  exact List.mem_filterMap.mpr ⟨t, ht, by simp [classifyOne, hb]⟩

/-- C2 witness: the spec's first example — one transfer to address A,
empty buys mapping. -/
theorem c2_witness :
    ((⟨"A", TsVal.str "2024-01-01T00:00:00Z", Val.num 100⟩ : TransferRec)
        ∈ [(⟨"A", TsVal.str "2024-01-01T00:00:00Z", Val.num 100⟩ : TransferRec)]) ∧
    (∃ v ∈ (analyze_phishy_behavior_pumpfun
        [(⟨"A", TsVal.str "2024-01-01T00:00:00Z", Val.num 100⟩ : TransferRec)]
        (fun _ => none)).2,
      v.address = "A" ∧
      v.reason = "Never bought the token" ∧
      v.totalBought = Val.num 0 ∧
      v.firstBuyTime = TsVal.null ∧
      v.transferredWithoutBuy = nullSafeAmount (Val.num 100)) :=
  ⟨by simp,
   c2_never_bought
     [(⟨"A", TsVal.str "2024-01-01T00:00:00Z", Val.num 100⟩ : TransferRec)]
     (fun _ => none)
     (⟨"A", TsVal.str "2024-01-01T00:00:00Z", Val.num 100⟩ : TransferRec)
     (by simp) rfl⟩

/-- C5: a transfer whose matching buy record has a null first_buy_time
always yields a verdict with reason "Buy record exists but no timestamp",
the record's bought amount, and transferred_without_buy the converted
difference transferred minus bought (both zeroed together if either
conversion raises). -/
theorem c5_no_timestamp (transfers : List TransferRec)
    (buys : String → Option BuyRec) (t : TransferRec) (b : BuyRec)
    (ht : t ∈ transfers) (hb : buys t.receiver = some b)
    (hfb : b.firstBuyTime = TsVal.null) :
    ∃ v ∈ (analyze_phishy_behavior_pumpfun transfers buys).2,
      v.address = t.receiver ∧
      v.reason = "Buy record exists but no timestamp" ∧
      v.totalBought = b.totalAmount ∧
      v.firstBuyTime = TsVal.null ∧
      v.transferredWithoutBuy
        = (convertAmounts t.totalTransferred b.totalAmount).2.2 ∧
      (∀ x y : ℚ, pyFloatTry t.totalTransferred = some x →
        pyFloatTry b.totalAmount = some y →
        v.transferredWithoutBuy = x - y) := by
  rw [analyze_snd_eq]
  refine ⟨{ address := t.receiver
            firstTransferTime := t.firstTransferTime
            firstBuyTime := TsVal.null
            totalTransferred := t.totalTransferred
            totalBought := b.totalAmount
            transferredWithoutBuy := (convertAmounts t.totalTransferred b.totalAmount).2.2
            reason := "Buy record exists but no timestamp" },
          ?_, rfl, rfl, rfl, rfl, rfl, ?_⟩
  · exact List.mem_filterMap.mpr ⟨t, ht, by simp [classifyOne, hb, hfb]⟩
  · intro x y hx hy
    exact convertAmounts_thd_of_some hx hy

/-- C5 witness: a buy record with an absent timestamp; transferred 50,
bought 20, difference 30. -/
theorem c5_witness :
    ((fun a => if a = "E" then some (⟨TsVal.null, Val.num 20⟩ : BuyRec) else none) "E"
        = some (⟨TsVal.null, Val.num 20⟩ : BuyRec)) ∧
    (∃ v ∈ (analyze_phishy_behavior_pumpfun
        [(⟨"E", TsVal.str "2024-01-01T00:00:00Z", Val.num 50⟩ : TransferRec)]
        (fun a => if a = "E" then some (⟨TsVal.null, Val.num 20⟩ : BuyRec) else none)).2,
      v.address = "E" ∧
      v.reason = "Buy record exists but no timestamp" ∧
      v.totalBought = Val.num 20 ∧
      v.firstBuyTime = TsVal.null ∧
      v.transferredWithoutBuy = (convertAmounts (Val.num 50) (Val.num 20)).2.2 ∧
      (∀ x y : ℚ, pyFloatTry (Val.num 50) = some x → pyFloatTry (Val.num 20) = some y →
        v.transferredWithoutBuy = x - y)) :=
  ⟨by simp,
   c5_no_timestamp
     [(⟨"E", TsVal.str "2024-01-01T00:00:00Z", Val.num 50⟩ : TransferRec)]
     (fun a => if a = "E" then some (⟨TsVal.null, Val.num 20⟩ : BuyRec) else none)
     (⟨"E", TsVal.str "2024-01-01T00:00:00Z", Val.num 50⟩ : TransferRec)
     (⟨TsVal.null, Val.num 20⟩ : BuyRec)
     (by simp) (by simp) rfl⟩

/-- C10: a transfer with a null first_transfer_time whose matching buy
record has a present, parseable first_buy_time produces no verdict: the
None-versus-datetime comparison raises, and the fallback's truthiness
guard rejects the null transfer time. -/
theorem c10_null_transfer_time (t : TransferRec)
    (buys : String → Option BuyRec) (b : BuyRec) (db : PyDT)
    (hftt : t.firstTransferTime = TsVal.null)
    (hb : buys t.receiver = some b)
    (hp : toDT b.firstBuyTime = Except.ok (DTObj.dt db)) :
    classifyOne t buys = none := by
  cases hfb : b.firstBuyTime with
  | null => rw [hfb] at hp; simp [toDT] at hp
  | str sb =>
      rw [hfb] at hp
      simp [classifyOne, hb, hfb, hftt, tryCompare, hp, ltDT, truthyTs,
        show toDT TsVal.null = Except.ok DTObj.pyNone from rfl]

/-- Extract the parsed datetime of a raw timestamp string (default dummy
when it does not parse); used to instantiate witnesses. -/
def dtOfStr (s : String) : PyDT :=
  match toDT (TsVal.str s) with
  | Except.ok (DTObj.dt d) => d
  | _ => ⟨0, none⟩

/-- C10 witness: null transfer time against a parseable buy time. -/
theorem c10_witness :
    (toDT (TsVal.str "2024-01-01T00:00:00Z")
        = Except.ok (DTObj.dt (dtOfStr "2024-01-01T00:00:00Z"))) ∧
    classifyOne (⟨"D", TsVal.null, Val.num 1⟩ : TransferRec)
      (fun a => if a = "D"
        then some (⟨TsVal.str "2024-01-01T00:00:00Z", Val.num 1⟩ : BuyRec)
        else none) = none :=
  ⟨rfl,
   c10_null_transfer_time
     (⟨"D", TsVal.null, Val.num 1⟩ : TransferRec)
     (fun a => if a = "D"
        then some (⟨TsVal.str "2024-01-01T00:00:00Z", Val.num 1⟩ : BuyRec)
        else none)
     (⟨TsVal.str "2024-01-01T00:00:00Z", Val.num 1⟩ : BuyRec)
     (dtOfStr "2024-01-01T00:00:00Z")
     rfl rfl rfl⟩

/-- C3: when the buys entry exists, both timestamps evaluate to parsed
datetimes, and the two datetimes are comparable (equal awareness, so the
comparison cannot raise), a verdict is produced exactly when the transfer
instant is strictly earlier than the buy instant — the chronological
comparison of instants, not a lexical one.  Mixed naive/aware pairs raise
`TypeError` in the code and fall to the lexical fallback instead. -/
theorem c3_transfer_precedes_buy (t : TransferRec)
    (buys : String → Option BuyRec) (b : BuyRec) (da db : PyDT)
    (hb : buys t.receiver = some b)
    (h1 : toDT t.firstTransferTime = Except.ok (DTObj.dt da))
    (h2 : toDT b.firstBuyTime = Except.ok (DTObj.dt db))
    (hoff : da.tzOffset.isSome = db.tzOffset.isSome) :
    ((classifyOne t buys).isSome ↔ instantKey da < instantKey db) := by
  cases hfb : b.firstBuyTime with
  | null => rw [hfb] at h2; simp [toDT] at h2
  | str sb =>
      rw [hfb] at h2
      have hcmp : tryCompare t.firstTransferTime (TsVal.str sb)
          = Except.ok (decide (instantKey da < instantKey db)) := by
        rcases hx : da.tzOffset with _ | x <;> rcases hy : db.tzOffset with _ | y
        · simp [tryCompare, h1, h2, ltDT, hx, hy, instantKey]
        · rw [hx, hy] at hoff; simp at hoff
        · rw [hx, hy] at hoff; simp at hoff
        · simp [tryCompare, h1, h2, ltDT, hx, hy, instantKey]
      by_cases hlt : instantKey da < instantKey db
      · simp [classifyOne, hb, hfb, hcmp, hlt]
      · simp [classifyOne, hb, hfb, hcmp, hlt]

/-- C3 witness: the spec's examples — address B receives one day before
buying (verdict fires); address C buys one day before receiving (no
verdict). -/
theorem c3_witness :
    (classifyOne (⟨"B", TsVal.str "2024-01-02T00:00:00Z", Val.num 50⟩ : TransferRec)
        (fun a => if a = "B"
          then some (⟨TsVal.str "2024-01-03T00:00:00Z", Val.num 50⟩ : BuyRec)
          else none)).isSome ∧
    classifyOne (⟨"C", TsVal.str "2024-01-02T00:00:00Z", Val.num 50⟩ : TransferRec)
      (fun a => if a = "C"
        then some (⟨TsVal.str "2024-01-01T00:00:00Z", Val.num 50⟩ : BuyRec)
        else none) = none :=
  ⟨(c3_transfer_precedes_buy
      (⟨"B", TsVal.str "2024-01-02T00:00:00Z", Val.num 50⟩ : TransferRec)
      (fun a => if a = "B"
        then some (⟨TsVal.str "2024-01-03T00:00:00Z", Val.num 50⟩ : BuyRec)
        else none)
      (⟨TsVal.str "2024-01-03T00:00:00Z", Val.num 50⟩ : BuyRec)
      (dtOfStr "2024-01-02T00:00:00Z") (dtOfStr "2024-01-03T00:00:00Z")
      rfl rfl rfl rfl).mpr (by decide),
   Option.not_isSome_iff_eq_none.mp (fun h =>
     absurd
       ((c3_transfer_precedes_buy
          (⟨"C", TsVal.str "2024-01-02T00:00:00Z", Val.num 50⟩ : TransferRec)
          (fun a => if a = "C"
            then some (⟨TsVal.str "2024-01-01T00:00:00Z", Val.num 50⟩ : BuyRec)
            else none)
          (⟨TsVal.str "2024-01-01T00:00:00Z", Val.num 50⟩ : BuyRec)
          (dtOfStr "2024-01-02T00:00:00Z") (dtOfStr "2024-01-01T00:00:00Z")
          rfl rfl rfl rfl).mp h)
       (by decide))⟩

/-- C1 counterexample input: the transferred amount is the non-numeric
string "abc" while the buy record holds the numeric amount 5 and a null
timestamp, so the no-timestamp rule fires a verdict. -/
def c1Transfer : TransferRec :=
  ⟨"addr1", TsVal.str "2024-01-01T00:00:00Z", Val.str "abc"⟩

/-- C1 counterexample buys mapping. -/
def c1Buys : String → Option BuyRec :=
  fun a => if a = "addr1" then some ⟨TsVal.null, Val.num 5⟩ else none

/-- The verdict produced on the C1 counterexample input: the stored
transferred_without_buy is 0. -/
def c1Verdict : Verdict :=
  ⟨"addr1", TsVal.str "2024-01-01T00:00:00Z", TsVal.null, Val.str "abc",
    Val.num 5, 0, "Buy record exists but no timestamp"⟩

/-- C1 counterexample: the produced verdict stores
transferred_without_buy = 0, but the per-field null-safe rule of the
claim gives 0.0 − 5.0 = −5: when either conversion raises, the code
zeroes both amounts together rather than converting each field
independently. -/
theorem c1_counterexample :
    (analyze_phishy_behavior_pumpfun [c1Transfer] c1Buys).2 = [c1Verdict] ∧
    c1Verdict.transferredWithoutBuy
      ≠ nullSafeAmount c1Verdict.totalTransferred
          - nullSafeAmount c1Verdict.totalBought := by
  constructor
  · decide
  · have h1 : nullSafeAmount c1Verdict.totalTransferred = 0 := by decide
    have h2 : nullSafeAmount c1Verdict.totalBought = 5 := by decide
    have h3 : c1Verdict.transferredWithoutBuy = 0 := by decide
    rw [h1, h2, h3]
    norm_num

/-- C1 as amended: for every verdict, transferred_without_buy equals the
pair-converted difference of the stored transferred and bought amounts —
which is the per-field difference whenever both amounts convert (and may
be negative when bought exceeds transferred), but is 0.0 outright when
either present amount is non-numeric, the conversion never raising either
way. -/
theorem c1_transferred_without_buy (t : TransferRec)
    (buys : String → Option BuyRec) (v : Verdict)
    (h : classifyOne t buys = some v) :
    v.transferredWithoutBuy
        = (convertAmounts v.totalTransferred v.totalBought).2.2 ∧
      (∀ x y : ℚ, pyFloatTry v.totalTransferred = some x →
        pyFloatTry v.totalBought = some y →
        v.transferredWithoutBuy = x - y) := by
  have hmain : v.transferredWithoutBuy
      = (convertAmounts v.totalTransferred v.totalBought).2.2 := by
    cases hb : buys t.receiver with
    | none =>
        simp [classifyOne, hb] at h
        rw [← h]
        exact (convertAmounts_fst_eq_thd_zero t.totalTransferred).symm
    | some b =>
        cases hfb : b.firstBuyTime with
        | null =>
            simp [classifyOne, hb, hfb] at h
            rw [← h]
        | str sb =>
            rcases hc : tryCompare t.firstTransferTime (TsVal.str sb) with e | bl
            · simp only [classifyOne, hb, hfb, hc] at h
              split at h
              · split at h
                · simp at h; rw [← h]
                · exact absurd h (by simp)
              · exact absurd h (by simp)
            · cases bl with
              | true =>
                  simp only [classifyOne, hb, hfb, hc] at h
                  simp at h; rw [← h]
              | false =>
                  simp only [classifyOne, hb, hfb, hc] at h
                  exact absurd h (by simp)
  refine ⟨hmain, fun x y hx hy => ?_⟩
  rw [hmain]
  exact convertAmounts_thd_of_some hx hy

/-- C1 witness input: transferred 4, bought 10, both numeric. -/
def c1wTransfer : TransferRec := ⟨"addr2", TsVal.str "t1", Val.num 4⟩

/-- C1 witness buys mapping. -/
def c1wBuys : String → Option BuyRec :=
  fun a => if a = "addr2" then some ⟨TsVal.null, Val.num 10⟩ else none

/-- C1 witness verdict: transferred_without_buy is 4 − 10 = −6. -/
def c1wVerdict : Verdict :=
  ⟨"addr2", TsVal.str "t1", TsVal.null, Val.num 4, Val.num 10,
    (convertAmounts (Val.num 4) (Val.num 10)).2.2,
    "Buy record exists but no timestamp"⟩

/-- C1 witness: a concrete verdict whose difference is negative because
bought exceeds transferred. -/
theorem c1_witness :
    (classifyOne c1wTransfer c1wBuys = some c1wVerdict) ∧
    c1wVerdict.transferredWithoutBuy
        = (convertAmounts c1wVerdict.totalTransferred c1wVerdict.totalBought).2.2 ∧
    c1wVerdict.transferredWithoutBuy = -6 ∧
    c1wVerdict.transferredWithoutBuy < 0 :=
  ⟨rfl,
   (c1_transferred_without_buy c1wTransfer c1wBuys c1wVerdict rfl).1,
   by norm_num [c1wVerdict, convertAmounts, pyFloatTry],
   by norm_num [c1wVerdict, convertAmounts, pyFloatTry]⟩

/-- C4 counterexample input: the transfer time is the empty string —
present but falsy — and the buy time is the unparseable string "x". -/
def c4Transfer : TransferRec := ⟨"addr3", TsVal.str "", Val.num 1⟩

/-- C4 counterexample buys mapping. -/
def c4Buys : String → Option BuyRec :=
  fun a => if a = "addr3" then some ⟨TsVal.str "x", Val.num 1⟩ else none

/-- C4 counterexample: both timestamp values are present (non-null) and
parsing fails, and the transfer value sorts lexically before the buy
value, yet no verdict is produced — the fallback's guard tests Python
truthiness, so the empty string is rejected. -/
theorem c4_counterexample :
    (toDT (TsVal.str "") = Except.error ()) ∧
    (TsVal.str "" ≠ TsVal.null) ∧ (TsVal.str "x" ≠ TsVal.null) ∧
    (("" : String) < "x") ∧
    classifyOne c4Transfer c4Buys = none := by
  refine ⟨rfl, by decide, by decide,
    String.lt_iff_toList_lt.mpr (by decide), by decide⟩

/-- C4 as amended: when the buys entry exists, the structured comparison
raises, and both raw timestamp values are truthy (present and non-empty —
the guard's actual test), a verdict with reason "Transfer before buy
(string comparison)" is produced exactly when the transfer value sorts
lexically before the buy value, and no verdict at all otherwise. -/
theorem c4_lexical_fallback (t : TransferRec)
    (buys : String → Option BuyRec) (b : BuyRec)
    (hb : buys t.receiver = some b)
    (herr : tryCompare t.firstTransferTime b.firstBuyTime = Except.error ())
    (ht1 : truthyTs t.firstTransferTime = true)
    (ht2 : truthyTs b.firstBuyTime = true) :
    ((∃ v, classifyOne t buys = some v ∧
        v.reason = "Transfer before buy (string comparison)")
      ↔ tsRaw t.firstTransferTime < tsRaw b.firstBuyTime) ∧
    (¬ tsRaw t.firstTransferTime < tsRaw b.firstBuyTime →
      classifyOne t buys = none) := by
  cases hfb : b.firstBuyTime with
  | null => rw [hfb] at ht2; simp [truthyTs] at ht2
  | str sb =>
      rw [hfb] at herr ht2
      by_cases hlt : tsRaw t.firstTransferTime < tsRaw (TsVal.str sb)
      · have hb' : pyStrLt (tsRaw t.firstTransferTime) (tsRaw (TsVal.str sb)) = true :=
          (pyStrLt_iff _ _).mpr hlt
        constructor
        · simp [classifyOne, hb, hfb, herr, ht1, ht2, hb', hlt]
        · intro hn; exact absurd hlt hn
      · have hb' : pyStrLt (tsRaw t.firstTransferTime) (tsRaw (TsVal.str sb)) = false :=
          Bool.not_eq_true _ ▸ eq_false_of_ne_true
            (fun h => hlt ((pyStrLt_iff _ _).mp h))
        constructor
        · simp [classifyOne, hb, hfb, herr, ht1, ht2, hb', hlt]
        · intro _; simp [classifyOne, hb, hfb, herr, ht1, ht2, hb']

/-- C4 witness input: transfer time "w", buy time "x", both truthy and
unparseable, with "w" sorting before "x". -/
def c4wTransfer : TransferRec := ⟨"addr4", TsVal.str "w", Val.num 1⟩

/-- C4 witness buys mapping. -/
def c4wBuys : String → Option BuyRec :=
  fun a => if a = "addr4" then some ⟨TsVal.str "x", Val.num 1⟩ else none

/-- C4 witness: the lexical fallback fires on truthy unparseable
timestamps. -/
theorem c4_witness :
    (tryCompare (TsVal.str "w") (TsVal.str "x") = Except.error ()) ∧
    (∃ v, classifyOne c4wTransfer c4wBuys = some v ∧
      v.reason = "Transfer before buy (string comparison)") :=
  ⟨rfl,
   ((c4_lexical_fallback c4wTransfer c4wBuys ⟨TsVal.str "x", Val.num 1⟩
      rfl rfl rfl rfl).1).mpr
     (String.lt_iff_toList_lt.mpr (by decide))⟩

/-- The verdict addresses form a sublist (order-preserving selection) of
the transfer receivers. -/
theorem filterMap_addr_sublist (buys : String → Option BuyRec) :
    ∀ ts : List TransferRec,
      List.Sublist
        ((ts.filterMap (fun t => classifyOne t buys)).map (fun v => v.address))
        (ts.map (fun t => t.receiver))
  | [] => List.Sublist.slnil
  | t :: ts => by
      cases h : classifyOne t buys with
      | none =>
          simp only [List.filterMap_cons, h, List.map_cons]
          exact List.Sublist.cons _ (filterMap_addr_sublist buys ts)
      | some v =>
          simp only [List.filterMap_cons, h, List.map_cons,
            classifyOne_address h]
          exact List.Sublist.cons₂ _ (filterMap_addr_sublist buys ts)

/-- C9: the verdict list is the in-order filtering of the transfer
sequence (stable, no re-sorting); under distinct receiving addresses
every address carries at most one verdict; and an address has a verdict
exactly when the per-record rule set fires for one of its transfer
records. -/
theorem c9_order_and_uniqueness (transfers : List TransferRec)
    (buys : String → Option BuyRec)
    (hnd : (transfers.map (fun t => t.receiver)).Nodup) :
    ((analyze_phishy_behavior_pumpfun transfers buys).2
        = transfers.filterMap (fun t => classifyOne t buys)) ∧
    List.Sublist
      (((analyze_phishy_behavior_pumpfun transfers buys).2).map (fun v => v.address))
      (transfers.map (fun t => t.receiver)) ∧
    (((analyze_phishy_behavior_pumpfun transfers buys).2).map (fun v => v.address)).Nodup ∧
    (∀ a : String,
      (∃ v ∈ (analyze_phishy_behavior_pumpfun transfers buys).2, v.address = a)
        ↔ (∃ t ∈ transfers, t.receiver = a ∧ (classifyOne t buys).isSome)) := by
  rw [analyze_snd_eq]
  refine ⟨rfl, filterMap_addr_sublist buys transfers,
          List.Nodup.sublist (filterMap_addr_sublist buys transfers) hnd, ?_⟩
  intro a
  constructor
  · rintro ⟨v, hv, rfl⟩
    obtain ⟨t, ht, hct⟩ := List.mem_filterMap.mp hv
    exact ⟨t, ht, (classifyOne_address hct).symm, by simp [hct]⟩
  · rintro ⟨t, ht, rfl, hsome⟩
    obtain ⟨v, hv⟩ := Option.isSome_iff_exists.mp hsome
    exact ⟨v, List.mem_filterMap.mpr ⟨t, ht, hv⟩, classifyOne_address hv⟩

/-- C9 witness: two transfers with distinct receivers, the first never
bought, the second bought strictly earlier than it received. -/
theorem c9_witness :
    (([(⟨"A", TsVal.str "2024-01-01T00:00:00Z", Val.num 1⟩ : TransferRec),
       (⟨"C", TsVal.str "2024-01-02T00:00:00Z", Val.num 2⟩ : TransferRec)].map
        (fun t => t.receiver)).Nodup) ∧
    (∀ a : String,
      (∃ v ∈ (analyze_phishy_behavior_pumpfun
          [(⟨"A", TsVal.str "2024-01-01T00:00:00Z", Val.num 1⟩ : TransferRec),
           (⟨"C", TsVal.str "2024-01-02T00:00:00Z", Val.num 2⟩ : TransferRec)]
          (fun a => if a = "C"
            then some (⟨TsVal.str "2024-01-01T00:00:00Z", Val.num 2⟩ : BuyRec)
            else none)).2, v.address = a)
        ↔ (∃ t ∈ [(⟨"A", TsVal.str "2024-01-01T00:00:00Z", Val.num 1⟩ : TransferRec),
                  (⟨"C", TsVal.str "2024-01-02T00:00:00Z", Val.num 2⟩ : TransferRec)],
            t.receiver = a ∧
            (classifyOne t (fun a => if a = "C"
              then some (⟨TsVal.str "2024-01-01T00:00:00Z", Val.num 2⟩ : BuyRec)
              else none)).isSome)) :=
  ⟨by decide,
   (c9_order_and_uniqueness
      [(⟨"A", TsVal.str "2024-01-01T00:00:00Z", Val.num 1⟩ : TransferRec),
       (⟨"C", TsVal.str "2024-01-02T00:00:00Z", Val.num 2⟩ : TransferRec)]
      (fun a => if a = "C"
        then some (⟨TsVal.str "2024-01-01T00:00:00Z", Val.num 2⟩ : BuyRec)
        else none)
      (by decide)).2.2.2⟩

/-- C6 counterexample: a GraphQL error response (errors present, no
data). -/
def c6ErrResponse : GqlResponse (List TransferRec) :=
  ⟨false, SolField.nullOrMissing, true⟩

/-- C6 counterexample: a genuinely empty success response. -/
def c6EmptyResponse : GqlResponse (List TransferRec) :=
  ⟨true, SolField.dictWith (some []), false⟩

/-- C6 counterexample: an upstream-schema error (response carrying an
errors field and no data) makes the transfers fetcher return the same
plain empty list a genuinely empty success returns — the core receives a
silently-empty success, not an explicit failure signal. -/
theorem c6_counterexample :
    c6ErrResponse.hasErrors = true ∧
    c6EmptyResponse.hasErrors = false ∧
    get_first_transfers_pumpfun (HttpOutcome.response c6ErrResponse)
      = Except.ok [] ∧
    get_first_transfers_pumpfun (HttpOutcome.response c6ErrResponse)
      = get_first_transfers_pumpfun (HttpOutcome.response c6EmptyResponse) :=
  ⟨rfl, rfl, rfl, rfl⟩

/-- C6 as amended: only a transport error produces an explicit failure
signal (the process exits); a response whose data is missing or of an
unexpected shape — the GraphQL-errors case included — yields the empty
transfer list and the empty buys mapping as ordinary successes,
indistinguishable from genuine empty results. -/
theorem c6_error_signals (rT : GqlResponse (List TransferRec))
    (rB : GqlResponse (List TradeRec)) (buyers : List String)
    (hT : rT.hasData = false ∨ rT.sol = SolField.otherTruthy)
    (hB : rB.hasData = false ∨ rB.sol = SolField.otherTruthy) :
    get_first_transfers_pumpfun HttpOutcome.transportError = Except.error () ∧
    get_first_transfers_pumpfun (HttpOutcome.response rT) = Except.ok [] ∧
    get_first_buys_pumpfun buyers HttpOutcome.transportError
      = (if buyers.isEmpty then Except.ok [] else Except.error ()) ∧
    get_first_buys_pumpfun buyers (HttpOutcome.response rB) = Except.ok [] ∧
    (∀ a, buyDataOf [] a = none) := by
  refine ⟨rfl, ?_, ?_, ?_, fun a => rfl⟩
  · rcases hT with h | h
    · simp [get_first_transfers_pumpfun, make_graphql_request, extractItems, h]
    · cases hd : rT.hasData <;>
        simp [get_first_transfers_pumpfun, make_graphql_request, extractItems, h, hd]
  · cases hbl : buyers.isEmpty <;>
      simp [get_first_buys_pumpfun, make_graphql_request, hbl]
  · rcases hB with h | h
    · cases hbl : buyers.isEmpty <;>
        simp [get_first_buys_pumpfun, make_graphql_request, extractItems, h, hbl]
    · cases hbl : buyers.isEmpty <;> cases hd : rB.hasData <;>
        simp [get_first_buys_pumpfun, make_graphql_request, extractItems, h, hd, hbl]

/-- C6 witness: the amended behaviour at the concrete error response and
a one-element buyer list. -/
theorem c6_witness :
    (c6ErrResponse.hasData = false ∨ c6ErrResponse.sol = SolField.otherTruthy) ∧
    (get_first_transfers_pumpfun HttpOutcome.transportError = Except.error () ∧
     get_first_transfers_pumpfun (HttpOutcome.response c6ErrResponse) = Except.ok [] ∧
     get_first_buys_pumpfun ["A"] HttpOutcome.transportError
       = (if (["A"] : List String).isEmpty then Except.ok [] else Except.error ()) ∧
     get_first_buys_pumpfun ["A"]
        (HttpOutcome.response (⟨false, SolField.nullOrMissing, true⟩ : GqlResponse (List TradeRec)))
       = Except.ok [] ∧
     (∀ a, buyDataOf [] a = none)) :=
  ⟨Or.inl rfl,
   c6_error_signals c6ErrResponse
     (⟨false, SolField.nullOrMissing, true⟩ : GqlResponse (List TradeRec))
     ["A"] (Or.inl rfl) (Or.inl rfl)⟩

/-- C7 counterexample input: one never-bought transfer whose transferred
amount is the non-numeric string "abc". -/
def c7Transfer : TransferRec :=
  ⟨"addr7", TsVal.str "2024-01-01T00:00:00Z", Val.str "abc"⟩

/-- C7 counterexample: the classifier happily produces a verdict carrying
the raw non-numeric amount, but the aggregator's `float(x or 0)` raises
on it — the totals computation fails instead of treating the value as
0.0, so the aggregator is not total. -/
theorem c7_counterexample :
    ((analyze_phishy_behavior_pumpfun [c7Transfer] (fun _ => none)).2).length = 1 ∧
    computeTotals
      (((analyze_phishy_behavior_pumpfun [c7Transfer] (fun _ => none)).2).map
        verdictToAgg) = none :=
  ⟨rfl, rfl⟩

/-- One field sum succeeds and equals the sum of the converted amounts
when every conversion succeeds. -/
theorem sumAgg_eq_sum (f : AggRecord → Option Val) :
    ∀ vs : List AggRecord, (∀ r ∈ vs, (aggFloat (f r)).isSome) →
      sumAgg f vs = some ((vs.map (fun r => (aggFloat (f r)).getD 0)).sum)
  | [], _ => by simp [sumAgg]
  | r :: rs, h => by
      obtain ⟨x, hx⟩ := Option.isSome_iff_exists.mp (h r (by simp))
      rw [show sumAgg f (r :: rs)
            = (match aggFloat (f r), sumAgg f rs with
               | some x, some acc => some (x + acc)
               | _, _ => none) from rfl,
        hx, sumAgg_eq_sum f rs (fun r hr => h r (by simp [hr]))]
      simp [hx]

/-- C7 as amended: the totals computation is pure and total — and equal
to the three field sums under the falsy-to-zero conversion — whenever
every amount field of every verdict is absent, null, falsy, or numeric;
a present non-numeric string makes it fail (the exception reaching the
generic 500 handler), unlike the classifier's own conversion. -/
theorem c7_totals (vs : List AggRecord)
    (h : ∀ r ∈ vs, (aggFloat r.total_transferred).isSome ∧
      (aggFloat r.total_bought).isSome ∧
      (aggFloat r.transferred_without_buy).isSome) :
    computeTotals vs = some
      ((vs.map (fun r => (aggFloat r.total_transferred).getD 0)).sum,
       (vs.map (fun r => (aggFloat r.total_bought).getD 0)).sum,
       (vs.map (fun r => (aggFloat r.transferred_without_buy).getD 0)).sum) := by
  rw [computeTotals,
    sumAgg_eq_sum (fun r => r.total_transferred) vs (fun r hr => (h r hr).1),
    sumAgg_eq_sum (fun r => r.total_bought) vs (fun r hr => (h r hr).2.1),
    sumAgg_eq_sum (fun r => r.transferred_without_buy) vs (fun r hr => (h r hr).2.2)]

/-- C7 witness: a list with absent, null, empty-string and numeric amount
fields aggregates without failure. -/
theorem c7_witness :
    (∀ r ∈ [(⟨none, some Val.null, some (Val.str "")⟩ : AggRecord),
            (⟨some (Val.num 3), some (Val.num 1), some (Val.num 2)⟩ : AggRecord)],
      (aggFloat r.total_transferred).isSome ∧
      (aggFloat r.total_bought).isSome ∧
      (aggFloat r.transferred_without_buy).isSome) ∧
    computeTotals
      [(⟨none, some Val.null, some (Val.str "")⟩ : AggRecord),
       (⟨some (Val.num 3), some (Val.num 1), some (Val.num 2)⟩ : AggRecord)]
      = some
        (([(⟨none, some Val.null, some (Val.str "")⟩ : AggRecord),
           (⟨some (Val.num 3), some (Val.num 1), some (Val.num 2)⟩ : AggRecord)].map
            (fun r => (aggFloat r.total_transferred).getD 0)).sum,
         ([(⟨none, some Val.null, some (Val.str "")⟩ : AggRecord),
           (⟨some (Val.num 3), some (Val.num 1), some (Val.num 2)⟩ : AggRecord)].map
            (fun r => (aggFloat r.total_bought).getD 0)).sum,
         ([(⟨none, some Val.null, some (Val.str "")⟩ : AggRecord),
           (⟨some (Val.num 3), some (Val.num 1), some (Val.num 2)⟩ : AggRecord)].map
            (fun r => (aggFloat r.transferred_without_buy).getD 0)).sum) :=
  ⟨by decide,
   c7_totals
     [(⟨none, some Val.null, some (Val.str "")⟩ : AggRecord),
      (⟨some (Val.num 3), some (Val.num 1), some (Val.num 2)⟩ : AggRecord)]
     (by decide)⟩

/-- Reversing a right-suffix: the reverse of what `drop` leaves is a
prefix of the reversed list. -/
theorem reverse_drop_eq (l : List α) (n : Nat) :
    (l.drop n).reverse = l.reverse.take (l.length - n) := by
  have h : l.reverse = (l.drop n).reverse ++ (l.take n).reverse := by
    rw [← List.reverse_append, List.take_append_drop]
  calc (l.drop n).reverse
      = List.take ((l.drop n).reverse).length
          ((l.drop n).reverse ++ (l.take n).reverse) :=
        (List.take_left _ _).symm
    _ = l.reverse.take (l.length - n) := by
        rw [← h, List.length_reverse, List.length_drop]

/-- Folding bounded-deque appends from the empty deque keeps exactly the
last `m` appended elements, in insertion order. -/
theorem foldl_dequeAppend (m : Nat) (xs : List α) :
    xs.foldl (dequeAppend m) [] = xs.drop (xs.length - m) := by
  induction xs using List.reverseRecOn with
  | nil => simp
  | append_singleton l a ih =>
      rw [List.foldl_append, ih]
      simp only [List.foldl_cons, List.foldl_nil]
      show dequeAppend m (l.drop (l.length - m)) a
        = (l ++ [a]).drop ((l ++ [a]).length - m)
      unfold dequeAppend
      rw [← List.drop_append_of_le_length (Nat.sub_le _ _), List.drop_drop]
      congr 1
      simp only [List.length_drop, List.length_append, List.length_cons,
        List.length_nil]
      omega

/-- When every outcome in the run is phishy, the cache fold is the deque
fold over the corresponding entries. -/
theorem foldl_cacheStep_eq (rs : List CheckOutcome) :
    ∀ acc : List CacheEntry, (∀ r ∈ rs, 0 < r.phishyCount) →
      rs.foldl cacheStep acc
        = (rs.map toCacheEntry).foldl (dequeAppend phishyCacheMax) acc := by
  induction rs with
  | nil => intro acc _; rfl
  | cons r rs ih =>
      intro acc h
      simp only [List.foldl_cons, List.map_cons]
      rw [show cacheStep acc r = dequeAppend phishyCacheMax acc (toCacheEntry r) from by
        simp [cacheStep, h r (by simp)]]
      exact ih _ (fun x hx => h x (by simp [hx]))

/-- C8: after appending more than 100 phishy results to the empty cache,
the recent-phishy listing is exactly the 100 most recent entries in
most-recent-first order (the oldest entries having been evicted), and a
non-phishy result never touches the cache. -/
theorem c8_cache_bounded (rs : List CheckOutcome)
    (hall : ∀ r ∈ rs, 0 < r.phishyCount) (hlen : 100 < rs.length) :
    get_recent_phishy (rs.foldl cacheStep [])
        = ((rs.map toCacheEntry).reverse.take 100) ∧
      (∀ (q : List CacheEntry) (r : CheckOutcome),
        r.phishyCount = 0 → cacheStep q r = q) := by
  constructor
  · rw [foldl_cacheStep_eq rs [] hall, foldl_dequeAppend]
    unfold get_recent_phishy
    rw [reverse_drop_eq]
    congr 1
    simp only [List.length_map, phishyCacheMax]
    omega
  · intro q r h
    simp [cacheStep, h]

/-- C8 witness: 101 phishy results appended to the empty cache. -/
theorem c8_witness :
    (∀ r ∈ List.replicate 101 (⟨"tok", 1, (0, 0, 0)⟩ : CheckOutcome),
      0 < r.phishyCount) ∧
    100 < (List.replicate 101 (⟨"tok", 1, (0, 0, 0)⟩ : CheckOutcome)).length ∧
    (get_recent_phishy
        ((List.replicate 101 (⟨"tok", 1, (0, 0, 0)⟩ : CheckOutcome)).foldl cacheStep [])
        = (((List.replicate 101 (⟨"tok", 1, (0, 0, 0)⟩ : CheckOutcome)).map
            toCacheEntry).reverse.take 100) ∧
      (∀ (q : List CacheEntry) (r : CheckOutcome),
        r.phishyCount = 0 → cacheStep q r = q)) :=
  ⟨fun r hr => by rw [List.eq_of_mem_replicate hr]; decide,
   by simp,
   c8_cache_bounded _
     (fun r hr => by rw [List.eq_of_mem_replicate hr]; decide)
     (by simp)⟩
